import Mathlib

/-!
Shallow embedding of `invokeai/app/services/batch_manager_storage.py`
(`SqliteBatchProcessStorage` over the `batch_process` and `batch_session`
tables) together with the pydantic models it stores.

Modelling conventions:
* The sqlite database is a `DB`: the two tables as lists of rows in rowid
  (insertion) order, plus a `clock` standing for the monotone timestamp
  source `STRFTIME('%Y-%m-%d %H:%M:%f','NOW')` / `current_timestamp`.
  `SELECT` without `ORDER BY` walks rowid order, so `find?`/`filter` on the
  lists model the queries; `fetchone` is `find?`.
* Serialized TEXT cells are `DBText`: `json.dumps([batch.json() ...])`
  output is `DBText.batchesJson`, `graph.json()` output is
  `DBText.graphJson`, and any other string (in particular the literal
  `"unknown"` that the deserializers substitute for a missing key) is
  `DBText.str`.  The encoders are injective and their outputs are disjoint
  from `"unknown"`, which is what the constructors capture.
* A sqlite transaction that fails with `sqlite3.Error` is modelled by the
  `fail : Bool` argument of each mutating operation: `true` means the
  `execute`/`commit` raised, the `except` branch ran (`rollback`, so the
  state is unchanged) and the operation's wrapped exception is returned.
* Python exceptions are the `StoreErr` error component of `Except`.
* The `SqliteLock` re-entrant lock (thread.py) serializes every operation;
  the embedding is the resulting sequential semantics.
-/

namespace BatchStorage

/-- Opaque serialized work graph (`invokeai.app.services.graph.Graph` is an
external collaborator; the store only round-trips its `.json()` text). -/
structure Graph where
  payload : String
deriving DecidableEq, Repr

/-- `BatchDataType = Union[StrictStr, StrictInt, StrictFloat, ImageField]`.
`StrictFloat` is modelled as a rational (the store never computes with it,
it is only serialized and compared for round-trip); `ImageField` is an
external model carrying an image name. -/
inductive BatchDataType where
  | str (s : String)
  | int (i : Int)
  | float (q : Rat)
  | image (image_name : String)
deriving DecidableEq, Repr

/-- `class Batch(BaseModel)`: `data: list[dict[str, BatchDataType]]`,
`node_id: str`.  A python dict is modelled as an association list. -/
structure Batch where
  data : List (List (String × BatchDataType))
  node_id : String
deriving DecidableEq, Repr

/-- The `Literal["created", "completed", "inprogress", "error"]` state type
of `BatchSession` / `BatchSessionChanges`. -/
inductive SessState where
  | created
  | completed
  | inprogress
  | error
deriving DecidableEq, Repr

/-- The string a `SessState` is at python runtime (pydantic `Literal` values
are plain `str`s); this is what the INSERT/UPDATE statements store. -/
def SessState.toText : SessState → String
  | .created => "created"
  | .completed => "completed"
  | .inprogress => "inprogress"
  | .error => "error"

/-- Pydantic validation of the `state` field: a string outside the four
literals is rejected (`ValidationError`). -/
def parseState : String → Option SessState
  | "created" => some .created
  | "completed" => some .completed
  | "inprogress" => some .inprogress
  | "error" => some .error
  | _ => none

/-- `class BatchSession(BaseModel)`. -/
structure BatchSession where
  batch_id : String
  session_id : String
  state : SessState
deriving DecidableEq, Repr

/-- `class BatchProcess(BaseModel)` (field order as in the source;
`batch_id`'s uuid `default_factory` is the caller's concern — the store
always receives a concrete id). -/
structure BatchProcess where
  batch_id : String
  batches : List Batch
  canceled : Bool
  graph : Graph
deriving DecidableEq, Repr

/-- `class BatchSessionChanges(BaseModel, extra=Extra.forbid)`: only `state`
is present, and it is required. -/
structure BatchSessionChanges where
  state : SessState
deriving DecidableEq, Repr

/-- The exceptions raised by the storage layer.  The first six are the
module's own exception classes; `jsonDecode` and `validation` are the
`json.JSONDecodeError` / pydantic `ValidationError` that escape the
deserializers uncaught. -/
inductive StoreErr where
  | batchProcessNotFound
  | batchProcessSave
  | batchProcessDelete
  | batchSessionNotFound
  | batchSessionSave
  | batchSessionDelete
  | jsonDecode
  | validation
deriving DecidableEq, Repr

/-- A serialized TEXT cell.  `batchesJson bs` is
`json.dumps([b.json() for b in bs])`; `graphJson g` is `g.json()`;
`str s` is any other text (only the `"unknown"` sentinel arises). -/
inductive DBText where
  | batchesJson (bs : List Batch)
  | graphJson (g : Graph)
  | str (s : String)
deriving DecidableEq, Repr

/-- `json.loads` of a `batches` cell followed by
`[parse_raw_as(Batch, b) for b in ...]`: succeeds exactly on encoder
output.  `"unknown"` is not valid JSON (`json.loads` raises
`JSONDecodeError`), and a graph's JSON is not a list of batch strings. -/
def loadsBatches : DBText → Option (List Batch)
  | .batchesJson bs => some bs
  | _ => none

/-- `parse_raw_as(Graph, ...)`: succeeds exactly on `g.json()` output;
`"unknown"` is rejected (pydantic `ValidationError`). -/
def parseGraph : DBText → Option Graph
  | .graphJson g => some g
  | _ => none

/-- A row of the `batch_process` table (`deleted_at` is always NULL and
never consulted, so it is omitted).  `canceled` is the stored SQL integer. -/
structure BPRow where
  batch_id : String
  batches : DBText
  graph : DBText
  canceled : Int
  created_at : Nat
  updated_at : Nat
deriving DecidableEq, Repr

/-- A row of the `batch_session` table (`deleted_at` omitted as above).
`state` is the stored TEXT, an arbitrary string at the SQL level. -/
structure BSRow where
  batch_id : String
  session_id : String
  state : String
  created_at : Nat
  updated_at : Nat
deriving DecidableEq, Repr

/-- The sqlite database owned by `SqliteBatchProcessStorage`. -/
structure DB where
  procs : List BPRow
  sessions : List BSRow
  clock : Nat
deriving DecidableEq, Repr

/-- The dict handed to `_deserialize_batch_process` (`dict(result)` of a
`SELECT *` row): each expected key present or absent. -/
structure BPRowDict where
  batch_id : Option String
  batches : Option DBText
  graph : Option DBText
  canceled : Option Int
deriving DecidableEq, Repr

/-- The dict handed to `_deserialize_batch_session`. -/
structure BSRowDict where
  batch_id : Option String
  session_id : Option String
  state : Option String
deriving DecidableEq, Repr

/-- `dict(result)` of a fetched `batch_process` row: every column present. -/
def BPRow.toDict (r : BPRow) : BPRowDict :=
  ⟨some r.batch_id, some r.batches, some r.graph, some r.canceled⟩

/-- `dict(result)` of a fetched `batch_session` row. -/
def BSRow.toDict (r : BSRow) : BSRowDict :=
  ⟨some r.batch_id, some r.session_id, some r.state⟩

/-- `_deserialize_batch_process`: `.get` each key with its sentinel default
(`"unknown"`, `0`), then `json.loads` + per-element `parse_raw_as(Batch, ·)`
on the batches text and `parse_raw_as(Graph, ·)` on the graph text, and
build `BatchProcess(..., canceled = (canceled == 1))`.  A parse failure
propagates as an uncaught exception. -/
def deserialize_batch_process (d : BPRowDict) : Except StoreErr BatchProcess :=
  let batch_id := d.batch_id.getD "unknown"
  let batches_raw := d.batches.getD (.str "unknown")
  let graph_raw := d.graph.getD (.str "unknown")
  let canceled := d.canceled.getD 0
  match loadsBatches batches_raw with
  | none => .error .jsonDecode
  | some bs =>
    match parseGraph graph_raw with
    | none => .error .validation
    | some g => .ok ⟨batch_id, bs, canceled == 1, g⟩

/-- `_deserialize_batch_session`: `.get` each key with the `"unknown"`
default, then build `BatchSession(...)`; pydantic rejects a `state` outside
the four literals. -/
def deserialize_batch_session (d : BSRowDict) : Except StoreErr BatchSession :=
  let batch_id := d.batch_id.getD "unknown"
  let session_id := d.session_id.getD "unknown"
  let state := d.state.getD "unknown"
  match parseState state with
  | none => .error .validation
  | some st => .ok ⟨batch_id, session_id, st⟩

/-- `get`: `SELECT * FROM batch_process WHERE batch_id = ?`, `fetchone`,
`BatchProcessNotFoundException` when no row (a `sqlite3.Error` during the
read maps to the same exception; reads do not fail in the model). -/
def get (batch_id : String) (db : DB) : Except StoreErr BatchProcess :=
  match db.procs.find? (fun r => r.batch_id == batch_id) with
  | none => .error .batchProcessNotFound
  | some r => deserialize_batch_process r.toDict

/-- `save`: `INSERT OR IGNORE INTO batch_process (batch_id, batches, graph)`
— the row is skipped when the primary key already exists, and `canceled`,
`created_at`, `updated_at` take their column defaults (0 / now) — then
`return self.get(batch_process.batch_id)`.  On `sqlite3.Error` the
transaction is rolled back and `BatchProcessSaveException` is raised. -/
def save (p : BatchProcess) (fail : Bool) (db : DB) :
    Except StoreErr BatchProcess × DB :=
  if fail then (.error .batchProcessSave, db)
  else
    let db' :=
      if db.procs.any (fun r => r.batch_id == p.batch_id) then db
      else
        { db with
          procs := db.procs ++
            [⟨p.batch_id, .batchesJson p.batches, .graphJson p.graph, 0,
              db.clock, db.clock⟩],
          clock := db.clock + 1 }
    (get p.batch_id db', db')

/-- `cancel`: `UPDATE batch_process SET canceled = 1 WHERE batch_id = ?`;
the `tg_batch_process_updated_at` trigger refreshes `updated_at` for each
row the UPDATE touched.  On `sqlite3.Error` the transaction is rolled back
and — as written in the source — `BatchSessionSaveException` is raised. -/
def cancel (batch_id : String) (fail : Bool) (db : DB) :
    Except StoreErr Unit × DB :=
  if fail then (.error .batchSessionSave, db)
  else
    let hit := db.procs.any (fun r => r.batch_id == batch_id)
    let procs' := db.procs.map (fun r =>
      if r.batch_id == batch_id then
        { r with canceled := 1, updated_at := db.clock }
      else r)
    (.ok (), { db with procs := procs',
                       clock := if hit then db.clock + 1 else db.clock })

/-- `delete`: `DELETE FROM batch_process WHERE batch_id = ?`; with
`PRAGMA foreign_keys = ON`, `ON DELETE CASCADE` removes every
`batch_session` row referencing a deleted `batch_process` row (nothing
cascades when no row matched).  On error `BatchProcessDeleteException`. -/
def delete (batch_id : String) (fail : Bool) (db : DB) :
    Except StoreErr Unit × DB :=
  if fail then (.error .batchProcessDelete, db)
  else
    let hadProc := db.procs.any (fun r => r.batch_id == batch_id)
    (.ok (),
      { db with
        procs := db.procs.filter (fun r => !(r.batch_id == batch_id)),
        sessions :=
          if hadProc then
            db.sessions.filter (fun s => !(s.batch_id == batch_id))
          else db.sessions })

/-- `get_session`: `SELECT * FROM batch_session WHERE session_id = ?` —
by `session_id` alone — `fetchone`, `BatchSessionNotFoundException` when no
row. -/
def get_session (session_id : String) (db : DB) : Except StoreErr BatchSession :=
  match db.sessions.find? (fun r => r.session_id == session_id) with
  | none => .error .batchSessionNotFound
  | some r => deserialize_batch_session r.toDict

/-- `create_session`: `INSERT OR IGNORE INTO batch_session
(batch_id, session_id, state)` — skipped when the composite primary key
already exists; `OR IGNORE` does not suppress FOREIGN KEY violations, so
inserting a fresh pair whose `batch_id` has no `batch_process` row raises
`sqlite3.IntegrityError`, caught and re-raised as
`BatchSessionSaveException` — then `return self.get_session(...)`. -/
def create_session (s : BatchSession) (fail : Bool) (db : DB) :
    Except StoreErr BatchSession × DB :=
  if fail then (.error .batchSessionSave, db)
  else if db.sessions.any (fun r =>
      r.batch_id == s.batch_id && r.session_id == s.session_id) then
    (get_session s.session_id db, db)
  else if db.procs.any (fun r => r.batch_id == s.batch_id) then
    let db' :=
      { db with
        sessions := db.sessions ++
          [⟨s.batch_id, s.session_id, s.state.toText, db.clock, db.clock⟩],
        clock := db.clock + 1 }
    (get_session s.session_id db', db')
  else (.error .batchSessionSave, db)

/-- `get_created_session` (singular): `SELECT * FROM batch_session WHERE
batch_id = ? AND state = 'created'`, `fetchone`,
`BatchSessionNotFoundException` when no row. -/
def get_created_session (batch_id : String) (db : DB) :
    Except StoreErr BatchSession :=
  match db.sessions.find? (fun r =>
      r.batch_id == batch_id && r.state == "created") with
  | none => .error .batchSessionNotFound
  | some r => deserialize_batch_session r.toDict

/-- `get_created_sessions` (plural): its SQL is
`SELECT * FROM batch_session WHERE batch_id = ? AND state = created;` —
`created` is unquoted, so sqlite resolves it as a column name, and
`batch_session` has no column `created`: the statement raises
`sqlite3.OperationalError` ("no such column: created") on every call,
which the `except sqlite3.Error` branch converts to
`BatchSessionNotFoundException`.  The operation therefore always fails. -/
def get_created_sessions (batch_id : String) (db : DB) :
    Except StoreErr (List BatchSession) :=
  .error .batchSessionNotFound

/-- Modelled from the spec: "`get_created_sessions(batch_id)` returns all
sessions in `created` state for the batch, in creation order. Fails with
`SessionNotFoundError` if the result set is empty."  This is the intended
behaviour of `get_created_sessions` (compare the quoted `'created'` in the
sibling `get_created_session`), used to state the divergence of the code. -/
def get_created_sessions_spec (batch_id : String) (db : DB) :
    Except StoreErr (List BatchSession) :=
  let rows := db.sessions.filter (fun r =>
    r.batch_id == batch_id && r.state == "created")
  if rows.isEmpty then .error .batchSessionNotFound
  else rows.mapM (fun r => deserialize_batch_session r.toDict)

/-- `update_session_state`: `UPDATE batch_session SET state = ? WHERE
batch_id = ? AND session_id = ?` (the `changes.state is not None` guard is
always true — `state` is a required field), commit, then
`return self.get_session(session_id)`; the trigger refreshes `updated_at`
of each touched row.  On `sqlite3.Error`: rollback and
`BatchSessionSaveException`. -/
def update_session_state (batch_id session_id : String)
    (changes : BatchSessionChanges) (fail : Bool) (db : DB) :
    Except StoreErr BatchSession × DB :=
  if fail then (.error .batchSessionSave, db)
  else
    let hit := db.sessions.any (fun r =>
      r.batch_id == batch_id && r.session_id == session_id)
    let sessions' := db.sessions.map (fun r =>
      if r.batch_id == batch_id && r.session_id == session_id then
        { r with state := changes.state.toText, updated_at := db.clock }
      else r)
    let db' := { db with sessions := sessions',
                         clock := if hit then db.clock + 1 else db.clock }
    (get_session session_id db', db')

/-- One call to the public API, with its arguments (mutating calls carry the
transaction-failure flag). -/
inductive Op where
  | save (p : BatchProcess) (fail : Bool)
  | get (batch_id : String)
  | cancel (batch_id : String) (fail : Bool)
  | delete (batch_id : String) (fail : Bool)
  | createSession (s : BatchSession) (fail : Bool)
  | getSession (session_id : String)
  | getCreatedSession (batch_id : String)
  | getCreatedSessions (batch_id : String)
  | updateSessionState (batch_id session_id : String)
      (changes : BatchSessionChanges) (fail : Bool)
deriving DecidableEq, Repr

/-- The state transition of one call (reads leave the database unchanged). -/
def applyOp : Op → DB → DB
  | .save p f, db => (save p f db).2
  | .get _, db => db
  | .cancel b f, db => (cancel b f db).2
  | .delete b f, db => (delete b f db).2
  | .createSession s f, db => (create_session s f db).2
  | .getSession _, db => db
  | .getCreatedSession _, db => db
  | .getCreatedSessions _, db => db
  | .updateSessionState b s c f, db => (update_session_state b s c f db).2

/-- The state after a sequence of calls. -/
def applyOps (ops : List Op) (db : DB) : DB :=
  ops.foldl (fun d op => applyOp op d) db

/-- The primary-key invariants sqlite enforces on the two tables:
`batch_id` unique in `batch_process`, `(batch_id, session_id)` unique in
`batch_session`. -/
def WF (db : DB) : Prop :=
  (db.procs.map (·.batch_id)).Nodup ∧
  (db.sessions.map (fun s => (s.batch_id, s.session_id))).Nodup

instance (db : DB) : Decidable (WF db) := by unfold WF; infer_instance

/-! ### Shared helper lemmas -/

deriving instance DecidableEq for Except

lemma map_id_of {α : Type} (l : List α) (f : α → α) (h : ∀ x ∈ l, f x = x) :
    l.map f = l := by
  induction l with
  | nil => rfl
  | cons a t ih =>
    simp only [List.map_cons, h a (List.mem_cons_self a t),
      ih (fun x hx => h x (List.mem_cons_of_mem a hx))]

lemma key_inj {α β : Type} {l : List α} {k : α → β}
    (h : (l.map k).Nodup) {a b : α} (ha : a ∈ l) (hb : b ∈ l)
    (hk : k a = k b) : a = b :=
  List.inj_on_of_nodup_map h ha hb hk

lemma any_true_of_exists {α : Type} {l : List α} {p : α → Bool}
    (h : ∃ x ∈ l, p x = true) : l.any p = true :=
  List.any_eq_true.2 ⟨h.choose, h.choose_spec⟩

lemma map_congr_mem {α β : Type} (l : List α) (f g : α → β)
    (h : ∀ x ∈ l, f x = g x) : l.map f = l.map g := by
  induction l with
  | nil => rfl
  | cons a t ih =>
    simp only [List.map_cons, h a (List.mem_cons_self a t),
      ih (fun x hx => h x (List.mem_cons_of_mem a hx))]

/-! ### Concrete fixtures used by witnesses and counterexamples

`exDb` is built through the public API itself: save batch `"B1"` (with one
`Batch` entry and `canceled := true` supplied by the caller), then create
sessions `"S1"` and `"S2"` under it, both in state `created`. -/

def exGraph : Graph := ⟨"graph-json"⟩

def exBatch : Batch := ⟨[[("prompt", .str "a cat")]], "node-1"⟩

def exProc : BatchProcess := ⟨"B1", [exBatch], true, exGraph⟩

def exSess1 : BatchSession := ⟨"B1", "S1", .created⟩

def exSess2 : BatchSession := ⟨"B1", "S2", .created⟩

def exDb : DB :=
  (create_session exSess2 false
    (create_session exSess1 false
      (save exProc false ⟨[], [], 0⟩).2).2).2

/-- `"B2"` saved next to `"B1"`, with a session reusing session id `"S1"`:
the composite primary key `(batch_id, session_id)` permits the same
`session_id` under two different batches. -/
def exProcB2 : BatchProcess := ⟨"B2", [], false, exGraph⟩

def exSessB2 : BatchSession := ⟨"B2", "S1", .created⟩

def exDb2 : DB :=
  (create_session exSessB2 false (save exProcB2 false exDb).2).2

/-! ### Claims -/

/-- C1: creation is idempotent — when a `batch_process` row with
`p.batch_id` already exists, `save p` leaves the whole store unchanged
(in particular the existing row's `batches`, `graph` and `canceled`), and
when a `batch_session` row with `(s.batch_id, s.session_id)` already
exists, `create_session s` leaves the whole store unchanged. -/
theorem save_create_existing_noop (p : BatchProcess) (s : BatchSession)
    (db : DB)
    (hp : ∃ r ∈ db.procs, r.batch_id = p.batch_id)
    (hs : ∃ r ∈ db.sessions,
      r.batch_id = s.batch_id ∧ r.session_id = s.session_id) :
    (save p false db).2 = db ∧ (create_session s false db).2 = db := by
  have hanyp : db.procs.any (fun r => r.batch_id == p.batch_id) = true := by
    rcases hp with ⟨r, hr, he⟩
    exact any_true_of_exists ⟨r, hr, by simp [he]⟩
  have hanys : db.sessions.any (fun r =>
      r.batch_id == s.batch_id && r.session_id == s.session_id) = true := by
    rcases hs with ⟨r, hr, he1, he2⟩
    exact any_true_of_exists ⟨r, hr, by simp [he1, he2]⟩
  constructor
  · simp [save, hanyp]
  · simp [create_session, hanys]

/-- Witness for C1 at the concrete fixture: `"B1"` and `("B1","S1")` are
already stored in `exDb`, and re-saving / re-creating them changes
nothing. -/
theorem save_create_existing_noop_witness :
    ((∃ r ∈ exDb.procs, r.batch_id = exProc.batch_id) ∧
      (∃ r ∈ exDb.sessions,
        r.batch_id = exSess1.batch_id ∧ r.session_id = exSess1.session_id)) ∧
    ((save exProc false exDb).2 = exDb ∧
      (create_session exSess1 false exDb).2 = exDb) :=
  ⟨⟨by decide, by decide⟩,
    save_create_existing_noop exProc exSess1 exDb (by decide) (by decide)⟩

/-- C2: round-trip — when `p.batch_id` is not stored yet, `save p` inserts
the row and both `save`'s own return value and a subsequent `get` are the
canonical stored row: `p`'s `batch_id`, `batches` and `graph`, with
`canceled = false` whatever the caller put in `p.canceled` (the INSERT
names only `batch_id, batches, graph`, so `canceled` takes its column
default `0`). -/
theorem save_get_round_trip (p : BatchProcess) (db : DB)
    (h : ∀ r ∈ db.procs, r.batch_id ≠ p.batch_id) :
    (save p false db).1 = .ok { p with canceled := false } ∧
    get p.batch_id (save p false db).2 = .ok { p with canceled := false } := by
  have hany : db.procs.any (fun r => r.batch_id == p.batch_id) = false := by
    simp only [List.any_eq_false]
    intro r hr
    simp [h r hr]
  have hnone : db.procs.find? (fun r => r.batch_id == p.batch_id) = none := by
    simp only [List.find?_eq_none]
    intro r hr
    simp [h r hr]
  have hsave2 : (save p false db).2 =
      { db with
        procs := db.procs ++
          [⟨p.batch_id, .batchesJson p.batches, .graphJson p.graph, 0,
            db.clock, db.clock⟩],
        clock := db.clock + 1 } := by
    simp [save, hany]
  have hget : get p.batch_id (save p false db).2
      = .ok { p with canceled := false } := by
    rw [hsave2]
    simp [get, List.find?_append, hnone, deserialize_batch_process,
      BPRow.toDict, loadsBatches, parseGraph]
  refine ⟨?_, hget⟩
  have hsave1 : (save p false db).1 = get p.batch_id (save p false db).2 := by
    simp [save]
  rw [hsave1, hget]

/-- Witness for C2: saving `"B1"` (with a batch list, a graph and
`canceled := true`) into the empty store round-trips with
`canceled = false`. -/
theorem save_get_round_trip_witness :
    (∀ r ∈ (⟨[], [], 0⟩ : DB).procs, r.batch_id ≠ exProc.batch_id) ∧
    ((save exProc false ⟨[], [], 0⟩).1 = .ok { exProc with canceled := false } ∧
      get exProc.batch_id (save exProc false ⟨[], [], 0⟩).2
        = .ok { exProc with canceled := false }) :=
  ⟨by decide, save_get_round_trip exProc ⟨[], [], 0⟩ (by decide)⟩

/-- Auxiliary: pydantic accepts exactly the four literal state strings, and
the stored text of a legal state round-trips. -/
lemma parseState_toText (st : SessState) : parseState st.toText = some st := by
  cases st <;> rfl

/-- C8 (counterexample): the claim says deserialization never fails on
account of a missing field.  But for a `batch_process` row missing its
`batches` column the substituted sentinel `"unknown"` is not valid JSON, so
`json.loads` raises and deserialization fails; likewise a `batch_session`
row missing `state` gets `"unknown"`, which pydantic's `Literal` validation
rejects. -/
theorem deserialize_missing_field_can_fail :
    deserialize_batch_process
        ⟨some "B1", none, some (.graphJson exGraph), some 0⟩
      = .error .jsonDecode ∧
    deserialize_batch_session ⟨some "B1", some "S1", none⟩
      = .error .validation := ⟨rfl, rfl⟩

/-- C8 (amended): each missing field IS substituted with its literal
sentinel (`"unknown"` for strings, `0` — read back as `false` — for
`canceled`), and deserialization succeeds despite a missing `batch_id`,
`session_id` or `canceled`; but the sentinel put in for a missing
`batches`, `graph` or `state` fails the subsequent JSON parse / pydantic
validation, so those missing fields still make deserialization fail. -/
theorem deserialize_missing_field_policy :
    (∀ bs g c, deserialize_batch_process
        ⟨none, some (.batchesJson bs), some (.graphJson g), some c⟩
      = .ok ⟨"unknown", bs, c == 1, g⟩) ∧
    (∀ bid bs g, deserialize_batch_process
        ⟨some bid, some (.batchesJson bs), some (.graphJson g), none⟩
      = .ok ⟨bid, bs, false, g⟩) ∧
    (∀ bid g c, deserialize_batch_process
        ⟨some bid, none, some (.graphJson g), some c⟩
      = .error .jsonDecode) ∧
    (∀ bid bs c, deserialize_batch_process
        ⟨some bid, some (.batchesJson bs), none, some c⟩
      = .error .validation) ∧
    (∀ sid st, deserialize_batch_session ⟨none, some sid, some st.toText⟩
      = .ok ⟨"unknown", sid, st⟩) ∧
    (∀ bid st, deserialize_batch_session ⟨some bid, none, some st.toText⟩
      = .ok ⟨bid, "unknown", st⟩) ∧
    (∀ bid sid, deserialize_batch_session ⟨some bid, some sid, none⟩
      = .error .validation) := by
  refine ⟨fun bs g c => rfl, fun bid bs g => rfl, fun bid g c => rfl,
    fun bid bs c => rfl, fun sid st => ?_, fun bid st => ?_,
    fun bid sid => rfl⟩ <;>
    simp [deserialize_batch_session, parseState_toText]

/-- C4 (code bug): `exDb` holds batch `"B1"` with its two sessions `"S1"`,
`"S2"`, both in state `created` — the singular `get_created_session` finds
one of them, and the spec-modelled plural query would return `[S1, S2]` in
creation order — yet `get_created_sessions` raises
`BatchSessionNotFoundException`, because its SQL compares `state` against
the nonexistent column `created` (unquoted) and sqlite fails with
"no such column: created" on every call. -/
theorem get_created_sessions_always_errors :
    get_created_sessions "B1" exDb = .error .batchSessionNotFound ∧
    get_created_sessions_spec "B1" exDb
      = .ok [⟨"B1", "S1", .created⟩, ⟨"B1", "S2", .created⟩] ∧
    get_created_session "B1" exDb = .ok ⟨"B1", "S1", .created⟩ :=
  ⟨rfl, by decide, by decide⟩

/-- C5 (code bug): `cancel` does set `canceled = 1` on every matching row
and is a silent no-op when the id does not exist — but when the UPDATE
transaction fails it raises `BatchSessionSaveException` (the session kind),
not `BatchProcessSaveException` as the spec's error taxonomy prescribes for
a batch-process update. -/
theorem cancel_error_is_session_kind :
    (∀ bid db, cancel bid true db = (.error .batchSessionSave, db)) ∧
    (StoreErr.batchSessionSave ≠ StoreErr.batchProcessSave) ∧
    (∀ bid db, ∀ r' ∈ (cancel bid false db).2.procs,
      r'.batch_id = bid → r'.canceled = 1) ∧
    (∀ bid db, (∀ r ∈ db.procs, r.batch_id ≠ bid) →
      cancel bid false db = (.ok (), db)) := by
  refine ⟨fun bid db => rfl, by decide, ?_, ?_⟩
  · intro bid db r' hr' hid
    have hprocs : (cancel bid false db).2.procs = db.procs.map (fun r =>
        if r.batch_id == bid then
          { r with canceled := 1, updated_at := db.clock }
        else r) := rfl
    rw [hprocs] at hr'
    rcases List.mem_map.1 hr' with ⟨r, hr, rfl⟩
    by_cases hb : (r.batch_id == bid) = true
    · simp [hb]
    · rw [if_neg hb] at hid ⊢
      exact absurd hid (by simpa using hb)
  · intro bid db h
    have hany : db.procs.any (fun r => r.batch_id == bid) = false := by
      simp only [List.any_eq_false]
      intro r hr
      simp [h r hr]
    have hmap : db.procs.map (fun r =>
        if r.batch_id == bid then
          { r with canceled := 1, updated_at := db.clock }
        else r) = db.procs := by
      apply map_id_of
      intro r hr
      simp [h r hr]
    have : cancel bid false db = (.ok (), { db with
        procs := db.procs.map (fun r =>
          if r.batch_id == bid then
            { r with canceled := 1, updated_at := db.clock }
          else r),
        clock := if db.procs.any (fun r => r.batch_id == bid) then
          db.clock + 1 else db.clock }) := rfl
    rw [this, hmap, hany]
    rfl

/-- Witness for C5's conditional parts: cancelling the absent id `"ZZ"` in
`exDb` is a silent no-op, and a failing transaction on `"B1"` yields the
session-kind save error. -/
theorem cancel_error_is_session_kind_witness :
    cancel "B1" true exDb = (.error .batchSessionSave, exDb) ∧
    cancel "ZZ" false exDb = (.ok (), exDb) :=
  ⟨cancel_error_is_session_kind.1 "B1" exDb,
    cancel_error_is_session_kind.2.2.2 "ZZ" exDb (by decide)⟩

/-- C10 (counterexample): the claim says that for a `(batch_id, session_id)`
pair with no matching row, `update_session_state` raises
`SessionNotFoundError` from the trailing read.  But the trailing
`get_session` looks up by `session_id` alone: in `exDb` there is no row
`("B2","S1")` (no batch `"B2"` at all), yet updating that pair returns the
row `("B1","S1")` of the other batch, untouched — no error is raised. -/
theorem update_missing_pair_not_notfound :
    update_session_state "B2" "S1" ⟨.completed⟩ false exDb
      = (.ok ⟨"B1", "S1", .created⟩, exDb) := by decide

/-- C10 (amended): for a pair with no matching row the zero-row UPDATE
commits without `SessionSaveError` and the store is left unchanged; the
result is exactly the trailing `get_session(session_id)` on the unchanged
store, which raises `SessionNotFoundError` precisely when no row with that
`session_id` exists at all (a row under a different `batch_id` is returned
unchanged instead), and never `SessionSaveError`. -/
theorem update_missing_pair_behavior (bid sid : String)
    (ch : BatchSessionChanges) (db : DB)
    (h : ∀ r ∈ db.sessions, ¬(r.batch_id = bid ∧ r.session_id = sid)) :
    (update_session_state bid sid ch false db).2 = db ∧
    (update_session_state bid sid ch false db).1 = get_session sid db ∧
    ((∀ r ∈ db.sessions, r.session_id ≠ sid) →
      (update_session_state bid sid ch false db).1
        = .error .batchSessionNotFound) ∧
    (∀ e, (update_session_state bid sid ch false db).1 = .error e →
      e ≠ .batchSessionSave) := by
  have hany : db.sessions.any (fun r =>
      r.batch_id == bid && r.session_id == sid) = false := by
    simp only [List.any_eq_false]
    intro r hr
    have := h r hr
    simp only [Bool.and_eq_true, beq_iff_eq]
    tauto
  have hmap : db.sessions.map (fun r =>
      if r.batch_id == bid && r.session_id == sid then
        { r with state := ch.state.toText, updated_at := db.clock }
      else r) = db.sessions := by
    apply map_id_of
    intro r hr
    have hc : (r.batch_id == bid && r.session_id == sid) = false := by
      rw [Bool.eq_false_iff]
      intro hct
      simp only [Bool.and_eq_true, beq_iff_eq] at hct
      exact h r hr hct
    rw [if_neg (by simp [hc])]
  have hsnd : (update_session_state bid sid ch false db).2 = db := by
    have hdef : (update_session_state bid sid ch false db).2 =
        { db with
          sessions := db.sessions.map (fun r =>
            if r.batch_id == bid && r.session_id == sid then
              { r with state := ch.state.toText, updated_at := db.clock }
            else r),
          clock := if db.sessions.any (fun r =>
              r.batch_id == bid && r.session_id == sid) then
            db.clock + 1 else db.clock } := rfl
    rw [hdef, hmap, hany]
    rfl
  have hfst : (update_session_state bid sid ch false db).1
      = get_session sid db := by
    have hdef : (update_session_state bid sid ch false db).1
        = get_session sid (update_session_state bid sid ch false db).2 := rfl
    rw [hdef, hsnd]
  refine ⟨hsnd, hfst, ?_, ?_⟩
  · intro habs
    rw [hfst]
    have hnone : db.sessions.find? (fun r => r.session_id == sid) = none := by
      simp only [List.find?_eq_none]
      intro r hr
      simp [habs r hr]
    simp [get_session, hnone]
  · intro e he hc
    subst hc
    rw [hfst] at he
    cases hf : db.sessions.find? (fun r => r.session_id == sid) with
    | none => simp [get_session, hf] at he
    | some r =>
      simp only [get_session, hf] at he
      cases hp : parseState r.state with
      | none =>
        simp [deserialize_batch_session, BSRow.toDict, hp] at he
      | some st =>
        simp [deserialize_batch_session, BSRow.toDict, hp] at he

/-- Witness for C10's amended statement: updating the absent pair
`("B9","S9")` in `exDb` leaves the store unchanged and raises
`SessionNotFoundError` (no session `"S9"` exists at all). -/
theorem update_missing_pair_behavior_witness :
    (∀ r ∈ exDb.sessions, ¬(r.batch_id = "B9" ∧ r.session_id = "S9")) ∧
    ((update_session_state "B9" "S9" ⟨.completed⟩ false exDb).2 = exDb ∧
      (update_session_state "B9" "S9" ⟨.completed⟩ false exDb).1
        = get_session "S9" exDb ∧
      ((∀ r ∈ exDb.sessions, r.session_id ≠ "S9") →
        (update_session_state "B9" "S9" ⟨.completed⟩ false exDb).1
          = .error .batchSessionNotFound) ∧
      (∀ e, (update_session_state "B9" "S9" ⟨.completed⟩ false exDb).1
          = .error e → e ≠ .batchSessionSave)) :=
  ⟨by decide, update_missing_pair_behavior "B9" "S9" ⟨.completed⟩ exDb (by decide)⟩

/-- C3 (counterexample): `exDb2` holds batch `"B1"` with sessions `"S1"`,
`"S2"` and batch `"B2"` with a session also named `"S1"`.  `"S1"` is one of
`"B1"`'s session ids — the claim says that after `delete("B1")`,
`get_session("S1")` must fail — yet `get_session` (which looks up by
`session_id` alone) still finds `"B2"`'s surviving row. -/
theorem delete_cascade_shared_session_id :
    ((∃ s ∈ exDb2.sessions, s.batch_id = "B1" ∧ s.session_id = "S1") ∧
      (∃ r ∈ exDb2.procs, r.batch_id = "B1")) ∧
    get_session "S1" (delete "B1" false exDb2).2
      = .ok ⟨"B2", "S1", .created⟩ := by decide

/-- C3 (amended): `delete(batch_id)` succeeds, removes the
`batch_process` row, and cascades to the batch's session rows; afterwards
`get_session` fails with `SessionNotFoundError` for each of their session
ids provided that id is not also used by a session of a different batch;
deleting an id with no matching `batch_process` row succeeds silently and
leaves the store unchanged. -/
theorem delete_cascade (bid : String) (db : DB) :
    (delete bid false db).1 = .ok () ∧
    (∀ r ∈ (delete bid false db).2.procs, r.batch_id ≠ bid) ∧
    ((∃ r ∈ db.procs, r.batch_id = bid) →
      ∀ s ∈ db.sessions, s.batch_id = bid →
      (∀ t ∈ db.sessions, t.session_id = s.session_id → t.batch_id = bid) →
      get_session s.session_id (delete bid false db).2
        = .error .batchSessionNotFound) ∧
    ((∀ r ∈ db.procs, r.batch_id ≠ bid) → (delete bid false db).2 = db) := by
  refine ⟨rfl, ?_, ?_, ?_⟩
  · intro r hr
    have hdef : (delete bid false db).2.procs
        = db.procs.filter (fun r => !(r.batch_id == bid)) := rfl
    rw [hdef] at hr
    have := List.of_mem_filter hr
    simpa using this
  · intro hex s hs hsid huniq
    have hany : db.procs.any (fun r => r.batch_id == bid) = true := by
      rcases hex with ⟨r, hr, he⟩
      exact any_true_of_exists ⟨r, hr, by simp [he]⟩
    have hsess : (delete bid false db).2.sessions
        = db.sessions.filter (fun t => !(t.batch_id == bid)) := by
      have hdef : (delete bid false db).2.sessions
          = if db.procs.any (fun r => r.batch_id == bid) then
              db.sessions.filter (fun t => !(t.batch_id == bid))
            else db.sessions := rfl
      rw [hdef, hany]
      rfl
    have hnone : ((delete bid false db).2.sessions).find?
        (fun t => t.session_id == s.session_id) = none := by
      rw [hsess]
      simp only [List.find?_eq_none]
      intro t ht
      have htm := List.of_mem_filter ht
      have htmem := List.mem_of_mem_filter ht
      intro hts
      have : t.batch_id = bid := huniq t htmem (by simpa using hts)
      simp [this] at htm
    simp [get_session, hnone]
  · intro h
    have hany : db.procs.any (fun r => r.batch_id == bid) = false := by
      simp only [List.any_eq_false]
      intro r hr
      simp [h r hr]
    have hfilter : db.procs.filter (fun r => !(r.batch_id == bid))
        = db.procs := by
      rw [List.filter_eq_self]
      intro r hr
      simp [h r hr]
    have hdef : (delete bid false db).2 =
        { db with
          procs := db.procs.filter (fun r => !(r.batch_id == bid)),
          sessions := if db.procs.any (fun r => r.batch_id == bid) then
              db.sessions.filter (fun t => !(t.batch_id == bid))
            else db.sessions } := rfl
    rw [hdef, hfilter, hany]
    rfl

/-- Witness for C3's amended statement at the fixture: deleting `"B1"` from
`exDb` makes both of its sessions unreachable (their ids are used nowhere
else there), and deleting the absent `"ZZ"` changes nothing. -/
theorem delete_cascade_witness :
    ((∃ r ∈ exDb.procs, r.batch_id = "B1") ∧
      (∀ t ∈ exDb.sessions, t.session_id = "S1" → t.batch_id = "B1")) ∧
    (get_session "S1" (delete "B1" false exDb).2
      = .error .batchSessionNotFound ∧
    (delete "ZZ" false exDb).2 = exDb) :=
  ⟨⟨by decide, by decide⟩,
    (delete_cascade "B1" exDb).2.2.1 (by decide) ⟨"B1", "S1", "created", 1, 1⟩
        (by decide) (by decide) (by decide),
    (delete_cascade "ZZ" exDb).2.2.2 (by decide)⟩

/-- C7 (counterexample): in `exDb2` the session `("B2","S1")` exists; after
`update_session_state("B2","S1",{state: completed})` that row is updated,
but `get_session("S1")` — and the operation's own return value, which is
that same trailing read — returns the earlier-created row `("B1","S1")`,
still in state `created`, not `completed`. -/
theorem update_state_shared_session_id :
    (∃ r ∈ exDb2.sessions, r.batch_id = "B2" ∧ r.session_id = "S1") ∧
    (update_session_state "B2" "S1" ⟨.completed⟩ false exDb2).1
      = .ok ⟨"B1", "S1", .created⟩ ∧
    get_session "S1" (update_session_state "B2" "S1" ⟨.completed⟩ false exDb2).2
      = .ok ⟨"B1", "S1", .created⟩ := by decide

/-- C7 (amended): for an existing session `(batch_id, session_id)` whose
`session_id` is not shared with a session of any other batch,
`update_session_state` applies the state change and both its own return
value and a subsequent `get_session(session_id)` are the refreshed row
carrying the new state. -/
theorem update_state_visible (bid sid : String) (ch : BatchSessionChanges)
    (db : DB)
    (hex : ∃ r ∈ db.sessions, r.batch_id = bid ∧ r.session_id = sid)
    (huniq : ∀ r ∈ db.sessions, r.session_id = sid → r.batch_id = bid) :
    (update_session_state bid sid ch false db).1 = .ok ⟨bid, sid, ch.state⟩ ∧
    get_session sid (update_session_state bid sid ch false db).2
      = .ok ⟨bid, sid, ch.state⟩ := by
  have hfst : (update_session_state bid sid ch false db).1
      = get_session sid (update_session_state bid sid ch false db).2 := rfl
  rw [hfst, and_self]
  have hsess : (update_session_state bid sid ch false db).2.sessions
      = db.sessions.map (fun r =>
        if r.batch_id == bid && r.session_id == sid then
          { r with state := ch.state.toText, updated_at := db.clock }
        else r) := rfl
  have hsome : ∃ r0, db.sessions.find? (fun r => r.session_id == sid)
      = some r0 := by
    have : (db.sessions.find? (fun r => r.session_id == sid)).isSome := by
      rw [List.find?_isSome]
      rcases hex with ⟨r, hr, _, he⟩
      exact ⟨r, hr, by simp [he]⟩
    exact Option.isSome_iff_exists.1 this
  rcases hsome with ⟨r0, hr0⟩
  have hr0mem : r0 ∈ db.sessions := List.mem_of_find?_eq_some hr0
  have hr0sid : r0.session_id = sid := by
    have := List.find?_some hr0
    simpa using this
  have hr0bid : r0.batch_id = bid := huniq r0 hr0mem hr0sid
  have hpf : (fun r : BSRow => (if r.batch_id == bid && r.session_id == sid then
        { r with state := ch.state.toText, updated_at := db.clock }
      else r).session_id == sid) = (fun r : BSRow => r.session_id == sid) := by
    funext r
    by_cases hc : (r.batch_id == bid && r.session_id == sid) = true
    · rw [if_pos hc]
    · rw [if_neg hc]
  unfold get_session
  rw [hsess, List.find?_map, Function.comp_def, hpf, hr0]
  have hcond : (r0.batch_id == bid && r0.session_id == sid) = true := by
    simp [hr0bid, hr0sid]
  simp [Option.map, hcond, deserialize_batch_session, BSRow.toDict,
    parseState_toText, hr0bid, hr0sid]

/-- Witness for C7: completing `("B1","S1")` in `exDb` (where `"S1"` is
unique to batch `"B1"`) is visible through `get_session`. -/
theorem update_state_visible_witness :
    ((∃ r ∈ exDb.sessions, r.batch_id = "B1" ∧ r.session_id = "S1") ∧
      (∀ r ∈ exDb.sessions, r.session_id = "S1" → r.batch_id = "B1")) ∧
    ((update_session_state "B1" "S1" ⟨.completed⟩ false exDb).1
        = .ok ⟨"B1", "S1", .completed⟩ ∧
      get_session "S1" (update_session_state "B1" "S1" ⟨.completed⟩ false exDb).2
        = .ok ⟨"B1", "S1", .completed⟩) :=
  ⟨⟨by decide, by decide⟩,
    update_state_visible "B1" "S1" ⟨.completed⟩ exDb (by decide) (by decide)⟩

/-- The batch `bid` is present and every `batch_process` row carrying it is
flagged canceled. -/
def canceledAt (bid : String) (db : DB) : Prop :=
  (∃ r ∈ db.procs, r.batch_id = bid) ∧
  ∀ r ∈ db.procs, r.batch_id = bid → r.canceled = 1

lemma canceledAt_of_procs_eq {bid : String} {db db' : DB}
    (hp : db'.procs = db.procs) (h : canceledAt bid db) :
    canceledAt bid db' := by
  unfold canceledAt
  rw [hp]
  exact h

/-- `create_session` never touches the `batch_process` table. -/
lemma create_session_procs (s : BatchSession) (f : Bool) (db : DB) :
    (create_session s f db).2.procs = db.procs := by
  unfold create_session
  split
  · rfl
  · split
    · rfl
    · split
      · rfl
      · rfl

/-- `update_session_state` never touches the `batch_process` table. -/
lemma update_session_state_procs (bid sid : String)
    (ch : BatchSessionChanges) (f : Bool) (db : DB) :
    (update_session_state bid sid ch f db).2.procs = db.procs := by
  unfold update_session_state
  split
  · rfl
  · rfl

/-- No single call other than a successful `delete` of the batch itself can
un-cancel it. -/
lemma canceledAt_applyOp (bid : String) (op : Op) (db : DB)
    (h : canceledAt bid db) (hop : op ≠ Op.delete bid false) :
    canceledAt bid (applyOp op db) := by
  rcases h with ⟨hex, hall⟩
  cases op with
  | save p f =>
    cases f with
    | true => exact ⟨hex, hall⟩
    | false =>
      by_cases hany : db.procs.any (fun r => r.batch_id == p.batch_id) = true
      · have hp : (applyOp (Op.save p false) db).procs = db.procs := by
          simp [applyOp, save, hany]
        exact canceledAt_of_procs_eq hp ⟨hex, hall⟩
      · have hfalse : db.procs.any (fun r => r.batch_id == p.batch_id)
            = false := by
          revert hany
          cases db.procs.any (fun r => r.batch_id == p.batch_id) <;> simp
        have hp : (applyOp (Op.save p false) db).procs = db.procs ++
            [⟨p.batch_id, .batchesJson p.batches, .graphJson p.graph, 0,
              db.clock, db.clock⟩] := by
          simp [applyOp, save, hfalse]
        unfold canceledAt
        rw [hp]
        constructor
        · rcases hex with ⟨r, hr, he⟩
          exact ⟨r, List.mem_append_left _ hr, he⟩
        · intro r' hr' hb
          rcases List.mem_append.1 hr' with hin | hnew
          · exact hall r' hin hb
          · exfalso
            have : r'.batch_id = p.batch_id := by
              rcases List.mem_singleton.1 hnew with rfl
              rfl
            rcases hex with ⟨r, hr, he⟩
            have hne : r.batch_id ≠ p.batch_id := by
              have := List.any_eq_false.1 hfalse r hr
              simpa using this
            exact hne (he.trans (hb.symm.trans this))
  | get b => exact ⟨hex, hall⟩
  | cancel b f =>
    cases f with
    | true => exact ⟨hex, hall⟩
    | false =>
      have hp : (applyOp (Op.cancel b false) db).procs =
          db.procs.map (fun r =>
            if r.batch_id == b then
              { r with canceled := 1, updated_at := db.clock }
            else r) := rfl
      unfold canceledAt
      rw [hp]
      constructor
      · rcases hex with ⟨r, hr, he⟩
        refine ⟨_, List.mem_map_of_mem _ hr, ?_⟩
        by_cases hc : (r.batch_id == b) = true
        · rw [if_pos hc]
          exact he
        · rw [if_neg hc]
          exact he
      · intro r' hr' hb
        rcases List.mem_map.1 hr' with ⟨r, hr, rfl⟩
        by_cases hc : (r.batch_id == b) = true
        · rw [if_pos hc]
        · rw [if_neg hc] at hb ⊢
          exact hall r hr hb
  | delete b f =>
    cases f with
    | true => exact ⟨hex, hall⟩
    | false =>
      have hbne : b ≠ bid := by
        intro he
        exact hop (by rw [he])
      have hp : (applyOp (Op.delete b false) db).procs =
          db.procs.filter (fun r => !(r.batch_id == b)) := rfl
      unfold canceledAt
      rw [hp]
      constructor
      · rcases hex with ⟨r, hr, he⟩
        refine ⟨r, List.mem_filter.2 ⟨hr, ?_⟩, he⟩
        simp [he, hbne.symm]
      · intro r' hr' hb
        exact hall r' (List.mem_of_mem_filter hr') hb
  | createSession s f =>
    exact canceledAt_of_procs_eq (create_session_procs s f db) ⟨hex, hall⟩
  | getSession x => exact ⟨hex, hall⟩
  | getCreatedSession x => exact ⟨hex, hall⟩
  | getCreatedSessions x => exact ⟨hex, hall⟩
  | updateSessionState b sid ch f =>
    exact canceledAt_of_procs_eq
      (update_session_state_procs b sid ch f db) ⟨hex, hall⟩

lemma canceledAt_applyOps (bid : String) (ops : List Op) (db : DB)
    (h : canceledAt bid db) (hops : Op.delete bid false ∉ ops) :
    canceledAt bid (applyOps ops db) := by
  induction ops generalizing db with
  | nil => exact h
  | cons op t ih =>
    have h1 : canceledAt bid (applyOp op db) :=
      canceledAt_applyOp bid op db h
        (fun he => hops (he ▸ List.mem_cons_self op t))
    exact ih (applyOp op db) h1 (fun hm => hops (List.mem_cons_of_mem _ hm))

/-- When every stored row for `bid` has `canceled = 1`, a successful `get`
reports `canceled == true`. -/
lemma get_reports_canceled (bid : String) (db : DB)
    (h : ∀ r ∈ db.procs, r.batch_id = bid → r.canceled = 1) :
    ∀ p, get bid db = .ok p → p.canceled = true := by
  intro p hp
  unfold get at hp
  cases hf : db.procs.find? (fun r => r.batch_id == bid) with
  | none =>
    rw [hf] at hp
    exact Except.noConfusion hp
  | some r =>
    rw [hf] at hp
    have hp2 : deserialize_batch_process r.toDict = Except.ok p := hp
    have hrb : r.batch_id = bid := by simpa using List.find?_some hf
    have hrc : r.canceled = 1 := h r (List.mem_of_find?_eq_some hf) hrb
    cases hb : loadsBatches r.batches with
    | none => simp [deserialize_batch_process, BPRow.toDict, hb] at hp2
    | some bs =>
      cases hg : parseGraph r.graph with
      | none => simp [deserialize_batch_process, BPRow.toDict, hb, hg] at hp2
      | some g =>
        have hval : deserialize_batch_process r.toDict
            = .ok ⟨r.batch_id, bs, r.canceled == 1, g⟩ := by
          simp [deserialize_batch_process, BPRow.toDict, hb, hg]
        rw [hval] at hp2
        injection hp2 with hp'
        rw [← hp']
        simp [hrc]

/-- C6 (counterexample): the claim quantifies over all sequences of store
operations, but a successful `delete` followed by a fresh `save` of the
same `batch_id` resets `canceled`: after `cancel("B1")` on `exDb`, `get`
reports `canceled == true`, yet after the further operation sequence
`[delete "B1", save exProc]` it reports `canceled == false`. -/
theorem cancel_reset_by_delete_save :
    get "B1" (cancel "B1" false exDb).2 = .ok { exProc with canceled := true } ∧
    get "B1" (applyOps [Op.delete "B1" false, Op.save exProc false]
        (cancel "B1" false exDb).2)
      = .ok { exProc with canceled := false } := by decide

/-- C6 (amended): after `cancel(batch_id)` on an existing batch, the flag
is and stays set across every sequence of store operations that does not
contain a successful `delete(batch_id)` — `get(batch_id)` reports
`canceled == true` whenever it returns a value — and running `cancel`
again leaves every row's canceled state exactly as it was. -/
theorem cancel_monotonic (bid : String) (db : DB) (ops : List Op)
    (hex : ∃ r ∈ db.procs, r.batch_id = bid)
    (hops : Op.delete bid false ∉ ops) :
    canceledAt bid (cancel bid false db).2 ∧
    (∀ p, get bid (applyOps ops (cancel bid false db).2) = .ok p →
      p.canceled = true) ∧
    (cancel bid false (cancel bid false db).2).2.procs.map (·.canceled)
      = (cancel bid false db).2.procs.map (·.canceled) := by
  have hc1 : canceledAt bid (cancel bid false db).2 := by
    have hp : (cancel bid false db).2.procs =
        db.procs.map (fun r =>
          if r.batch_id == bid then
            { r with canceled := 1, updated_at := db.clock }
          else r) := rfl
    unfold canceledAt
    rw [hp]
    constructor
    · rcases hex with ⟨r, hr, he⟩
      refine ⟨_, List.mem_map_of_mem _ hr, ?_⟩
      rw [if_pos (by simp [he])]
      exact he
    · intro r' hr' hb
      rcases List.mem_map.1 hr' with ⟨r, hr, rfl⟩
      by_cases hcnd : (r.batch_id == bid) = true
      · rw [if_pos hcnd]
      · rw [if_neg hcnd] at hb ⊢
        exact absurd hb (by simpa using hcnd)
  refine ⟨hc1, ?_, ?_⟩
  · have h2 := canceledAt_applyOps bid ops (cancel bid false db).2 hc1 hops
    exact get_reports_canceled bid _ h2.2
  · have hp : ∀ (c : Nat) (l : List BPRow),
        (l.map (fun r =>
          if r.batch_id == bid then { r with canceled := 1, updated_at := c }
          else r)).map (·.canceled) =
        l.map (fun r => if r.batch_id == bid then (1 : Int) else r.canceled) := by
      intro c l
      induction l with
      | nil => rfl
      | cons a t ih =>
        simp only [List.map_cons]
        rw [ih]
        by_cases hcnd : (a.batch_id == bid) = true
        · rw [if_pos hcnd, if_pos hcnd]
        · rw [if_neg hcnd, if_neg hcnd]
    have hq : ∀ r' ∈ (cancel bid false db).2.procs,
        (if r'.batch_id == bid then (1 : Int) else r'.canceled)
          = r'.canceled := by
      intro r' hr'
      rcases List.mem_map.1 hr' with ⟨r, hr, rfl⟩
      by_cases hcnd : (r.batch_id == bid) = true
      · simp [hcnd]
      · simp [hcnd]
    have hfst : (cancel bid false (cancel bid false db).2).2.procs =
        ((cancel bid false db).2.procs).map (fun r =>
          if r.batch_id == bid then
            { r with canceled := 1, updated_at := (cancel bid false db).2.clock }
          else r) := rfl
    rw [hfst, hp]
    exact map_congr_mem _ _ _ hq

/-- A generic frame argument: if every row of the post-state list `P`
either descends from a pre-state row with the same key and the same
observed fields, or carries a key used by no pre-state row, then — keys
being unique in the pre-state — any post-state row matching a pre-state
row's key agrees with it on the observed fields. -/
lemma frame_from {α β γ : Type} [DecidableEq β] {l P : List α} {k : α → β}
    {m : α → γ} (hnd : (l.map k).Nodup)
    (hP : ∀ r' ∈ P, (∃ r ∈ l, k r' = k r ∧ m r' = m r) ∨
      (∀ r ∈ l, k r ≠ k r')) :
    ∀ r ∈ l, ∀ r' ∈ P, k r' = k r → m r' = m r := by
  intro r hr r' hr' hk
  rcases hP r' hr' with ⟨r2, hr2, hkk, hm⟩ | hnew
  · have he : r2 = r := key_inj hnd hr2 hr (by rw [← hkk, hk])
    rw [hm, he]
  · exact absurd hk.symm (hnew r hr)

/-- `save` never touches the `batch_session` table. -/
lemma save_sessions (p : BatchProcess) (f : Bool) (db : DB) :
    (save p f db).2.sessions = db.sessions := by
  by_cases hf : f = true
  · subst hf; rfl
  · have hf' : f = false := by revert hf; cases f <;> simp
    subst hf'
    by_cases hany : db.procs.any (fun r => r.batch_id == p.batch_id) = true
    · simp [save, hany]
    · have hfalse : db.procs.any (fun r => r.batch_id == p.batch_id)
          = false := by
        revert hany
        cases db.procs.any (fun r => r.batch_id == p.batch_id) <;> simp
      simp [save, hfalse]

/-- Every `batch_process` row after one call either descends unchanged in
`batch_id`, `batches`, `graph`, `created_at` from a pre-state row, or has a
`batch_id` no pre-state row used (a freshly inserted row). -/
lemma procs_descend (op : Op) (db : DB) :
    ∀ r' ∈ (applyOp op db).procs,
      (∃ r ∈ db.procs, r'.batch_id = r.batch_id ∧
        (r'.batches, r'.graph, r'.created_at)
          = (r.batches, r.graph, r.created_at)) ∨
      (∀ r ∈ db.procs, r.batch_id ≠ r'.batch_id) := by
  intro r' hr'
  cases op with
  | save p f =>
    cases f with
    | true => exact Or.inl ⟨r', hr', rfl, rfl⟩
    | false =>
      by_cases hany : db.procs.any (fun r => r.batch_id == p.batch_id) = true
      · have hp : (applyOp (Op.save p false) db).procs = db.procs := by
          simp [applyOp, save, hany]
        rw [hp] at hr'
        exact Or.inl ⟨r', hr', rfl, rfl⟩
      · have hfalse : db.procs.any (fun r => r.batch_id == p.batch_id)
            = false := by
          revert hany
          cases db.procs.any (fun r => r.batch_id == p.batch_id) <;> simp
        have hp : (applyOp (Op.save p false) db).procs = db.procs ++
            [⟨p.batch_id, .batchesJson p.batches, .graphJson p.graph, 0,
              db.clock, db.clock⟩] := by
          simp [applyOp, save, hfalse]
        rw [hp] at hr'
        rcases List.mem_append.1 hr' with hin | hnew
        · exact Or.inl ⟨r', hin, rfl, rfl⟩
        · right
          intro r hr
          rcases List.mem_singleton.1 hnew with rfl
          have := List.any_eq_false.1 hfalse r hr
          simpa using this
  | get b => exact Or.inl ⟨r', hr', rfl, rfl⟩
  | cancel b f =>
    cases f with
    | true => exact Or.inl ⟨r', hr', rfl, rfl⟩
    | false =>
      have hp : (applyOp (Op.cancel b false) db).procs =
          db.procs.map (fun r =>
            if r.batch_id == b then
              { r with canceled := 1, updated_at := db.clock }
            else r) := rfl
      rw [hp] at hr'
      rcases List.mem_map.1 hr' with ⟨r, hr, rfl⟩
      left
      refine ⟨r, hr, ?_, ?_⟩
      · by_cases hc : (r.batch_id == b) = true
        · rw [if_pos hc]
        · rw [if_neg hc]
      · by_cases hc : (r.batch_id == b) = true
        · rw [if_pos hc]
        · rw [if_neg hc]
  | delete b f =>
    cases f with
    | true => exact Or.inl ⟨r', hr', rfl, rfl⟩
    | false =>
      have hp : (applyOp (Op.delete b false) db).procs =
          db.procs.filter (fun r => !(r.batch_id == b)) := rfl
      rw [hp] at hr'
      exact Or.inl ⟨r', List.mem_of_mem_filter hr', rfl, rfl⟩
  | createSession s f =>
    rw [show (applyOp (Op.createSession s f) db).procs = db.procs from
      create_session_procs s f db] at hr'
    exact Or.inl ⟨r', hr', rfl, rfl⟩
  | getSession x => exact Or.inl ⟨r', hr', rfl, rfl⟩
  | getCreatedSession x => exact Or.inl ⟨r', hr', rfl, rfl⟩
  | getCreatedSessions x => exact Or.inl ⟨r', hr', rfl, rfl⟩
  | updateSessionState b sid ch f =>
    rw [show (applyOp (Op.updateSessionState b sid ch f) db).procs = db.procs
      from update_session_state_procs b sid ch f db] at hr'
    exact Or.inl ⟨r', hr', rfl, rfl⟩

/-- Every `batch_session` row after one call either descends from a
pre-state row with the same `(batch_id, session_id)` key and the same
`created_at`, or carries a key no pre-state row used. -/
lemma sessions_descend (op : Op) (db : DB) :
    ∀ s' ∈ (applyOp op db).sessions,
      (∃ s ∈ db.sessions,
        (s'.batch_id, s'.session_id) = (s.batch_id, s.session_id) ∧
        s'.created_at = s.created_at) ∨
      (∀ s ∈ db.sessions,
        (s.batch_id, s.session_id) ≠ (s'.batch_id, s'.session_id)) := by
  intro s' hs'
  cases op with
  | save p f =>
    rw [show (applyOp (Op.save p f) db).sessions = db.sessions from
      save_sessions p f db] at hs'
    exact Or.inl ⟨s', hs', rfl, rfl⟩
  | get b => exact Or.inl ⟨s', hs', rfl, rfl⟩
  | cancel b f =>
    have hp : (applyOp (Op.cancel b f) db).sessions = db.sessions := by
      cases f <;> rfl
    rw [hp] at hs'
    exact Or.inl ⟨s', hs', rfl, rfl⟩
  | delete b f =>
    cases f with
    | true => exact Or.inl ⟨s', hs', rfl, rfl⟩
    | false =>
      have hp : (applyOp (Op.delete b false) db).sessions =
          if db.procs.any (fun r => r.batch_id == b) then
            db.sessions.filter (fun t => !(t.batch_id == b))
          else db.sessions := rfl
      rw [hp] at hs'
      by_cases hany : db.procs.any (fun r => r.batch_id == b) = true
      · rw [if_pos hany] at hs'
        exact Or.inl ⟨s', List.mem_of_mem_filter hs', rfl, rfl⟩
      · rw [if_neg hany] at hs'
        exact Or.inl ⟨s', hs', rfl, rfl⟩
  | createSession s f =>
    cases f with
    | true => exact Or.inl ⟨s', hs', rfl, rfl⟩
    | false =>
      by_cases hpair : db.sessions.any (fun r =>
          r.batch_id == s.batch_id && r.session_id == s.session_id) = true
      · have hp : (applyOp (Op.createSession s false) db).sessions
            = db.sessions := by
          simp [applyOp, create_session, hpair]
        rw [hp] at hs'
        exact Or.inl ⟨s', hs', rfl, rfl⟩
      · have hpf : db.sessions.any (fun r =>
            r.batch_id == s.batch_id && r.session_id == s.session_id)
            = false := by
          revert hpair
          cases db.sessions.any (fun r =>
            r.batch_id == s.batch_id && r.session_id == s.session_id) <;> simp
        by_cases hproc : db.procs.any (fun r => r.batch_id == s.batch_id)
            = true
        · have hp : (applyOp (Op.createSession s false) db).sessions =
              db.sessions ++
                [⟨s.batch_id, s.session_id, s.state.toText,
                  db.clock, db.clock⟩] := by
            simp [applyOp, create_session, hpf, hproc]
          rw [hp] at hs'
          rcases List.mem_append.1 hs' with hin | hnew
          · exact Or.inl ⟨s', hin, rfl, rfl⟩
          · right
            intro t ht
            rcases List.mem_singleton.1 hnew with rfl
            have := List.any_eq_false.1 hpf t ht
            simp only [Bool.and_eq_true, beq_iff_eq] at this
            intro hcon
            have h1 : t.batch_id = s.batch_id := congrArg Prod.fst hcon
            have h2 : t.session_id = s.session_id := congrArg Prod.snd hcon
            exact this ⟨h1, h2⟩
        · have hprocf : db.procs.any (fun r => r.batch_id == s.batch_id)
              = false := by
            revert hproc
            cases db.procs.any (fun r => r.batch_id == s.batch_id) <;> simp
          have hp : (applyOp (Op.createSession s false) db).sessions
              = db.sessions := by
            simp [applyOp, create_session, hpf, hprocf]
          rw [hp] at hs'
          exact Or.inl ⟨s', hs', rfl, rfl⟩
  | getSession x => exact Or.inl ⟨s', hs', rfl, rfl⟩
  | getCreatedSession x => exact Or.inl ⟨s', hs', rfl, rfl⟩
  | getCreatedSessions x => exact Or.inl ⟨s', hs', rfl, rfl⟩
  | updateSessionState b sid ch f =>
    cases f with
    | true => exact Or.inl ⟨s', hs', rfl, rfl⟩
    | false =>
      have hp : (applyOp (Op.updateSessionState b sid ch false) db).sessions =
          db.sessions.map (fun r =>
            if r.batch_id == b && r.session_id == sid then
              { r with state := ch.state.toText, updated_at := db.clock }
            else r) := rfl
      rw [hp] at hs'
      rcases List.mem_map.1 hs' with ⟨s0, hs0, rfl⟩
      left
      refine ⟨s0, hs0, ?_, ?_⟩
      · by_cases hc : (s0.batch_id == b && s0.session_id == sid) = true
        · rw [if_pos hc]
        · rw [if_neg hc]
      · by_cases hc : (s0.batch_id == b && s0.session_id == sid) = true
        · rw [if_pos hc]
        · rw [if_neg hc]

/-- The frame property of one call on a well-formed store: immutable
columns of surviving rows never change, `cancel` rewrites at most the
`canceled` (and trigger-refreshed `updated_at`) column of rows of the
targeted batch, and `update_session_state` rewrites at most the `state`
(and `updated_at`) column of the targeted session row. -/
def FrameOK (op : Op) (db : DB) : Prop :=
  (∀ r ∈ db.procs, ∀ r' ∈ (applyOp op db).procs,
    r'.batch_id = r.batch_id →
    r'.batches = r.batches ∧ r'.graph = r.graph ∧
      r'.created_at = r.created_at) ∧
  (∀ s ∈ db.sessions, ∀ s' ∈ (applyOp op db).sessions,
    s'.batch_id = s.batch_id → s'.session_id = s.session_id →
    s'.created_at = s.created_at) ∧
  (∀ bid f, op = Op.cancel bid f →
    (applyOp op db).sessions = db.sessions ∧
    ∀ r' ∈ (applyOp op db).procs, ∃ r ∈ db.procs,
      r' = r ∨ (r.batch_id = bid ∧
        r' = { r with canceled := 1, updated_at := db.clock })) ∧
  (∀ bid sid ch f, op = Op.updateSessionState bid sid ch f →
    (applyOp op db).procs = db.procs ∧
    ∀ s' ∈ (applyOp op db).sessions, ∃ s ∈ db.sessions,
      s' = s ∨ (s.batch_id = bid ∧ s.session_id = sid ∧
        s' = { s with state := ch.state.toText, updated_at := db.clock }))

/-- C9: frame/immutability — on a store satisfying the primary-key
invariants, no operation changes the `batch_id`, `batches`, `graph` or
`created_at` of a surviving `batch_process` row nor the `created_at` of a
surviving `batch_session` row; `cancel` touches only the `canceled` field
(plus `updated_at`) of rows of its batch, and `update_session_state` only
the `state` field (plus `updated_at`) of its targeted session row. -/
theorem frame_immutable (op : Op) (db : DB) (h : WF db) : FrameOK op db := by
  obtain ⟨h1, h2⟩ := h
  refine ⟨?_, ?_, ?_, ?_⟩
  · intro r hr r' hr' hk
    have hm := frame_from (k := fun t : BPRow => t.batch_id)
      (m := fun t : BPRow => (t.batches, t.graph, t.created_at))
      h1 (procs_descend op db) r hr r' hr' hk
    simp only [Prod.mk.injEq] at hm
    exact ⟨hm.1, hm.2.1, hm.2.2⟩
  · intro s hs s' hs' hb hsid
    exact frame_from (k := fun t : BSRow => (t.batch_id, t.session_id))
      (m := fun t : BSRow => t.created_at)
      h2 (sessions_descend op db) s hs s' hs' (by simp [hb, hsid])
  · intro b f hop
    subst hop
    refine ⟨by cases f <;> rfl, ?_⟩
    intro r' hr'
    cases f with
    | true => exact ⟨r', hr', Or.inl rfl⟩
    | false =>
      have hp : (applyOp (Op.cancel b false) db).procs =
          db.procs.map (fun r =>
            if r.batch_id == b then
              { r with canceled := 1, updated_at := db.clock }
            else r) := rfl
      rw [hp] at hr'
      rcases List.mem_map.1 hr' with ⟨r, hr, rfl⟩
      refine ⟨r, hr, ?_⟩
      by_cases hc : (r.batch_id == b) = true
      · right
        exact ⟨by simpa using hc, by rw [if_pos hc]⟩
      · left
        rw [if_neg hc]
  · intro b sid ch f hop
    subst hop
    refine ⟨update_session_state_procs b sid ch f db, ?_⟩
    intro s' hs'
    cases f with
    | true => exact ⟨s', hs', Or.inl rfl⟩
    | false =>
      have hp : (applyOp (Op.updateSessionState b sid ch false) db).sessions =
          db.sessions.map (fun r =>
            if r.batch_id == b && r.session_id == sid then
              { r with state := ch.state.toText, updated_at := db.clock }
            else r) := rfl
      rw [hp] at hs'
      rcases List.mem_map.1 hs' with ⟨s0, hs0, rfl⟩
      refine ⟨s0, hs0, ?_⟩
      by_cases hc : (s0.batch_id == b && s0.session_id == sid) = true
      · right
        have hc' := hc
        simp only [Bool.and_eq_true, beq_iff_eq] at hc'
        exact ⟨hc'.1, hc'.2, by rw [if_pos hc]⟩
      · left
        rw [if_neg hc]

/-- Witness for C9: the frame property holds for cancelling `"B1"` on the
concrete two-batch store `exDb2`, whose key invariants hold by
computation. -/
theorem frame_immutable_witness :
    WF exDb2 ∧ FrameOK (Op.cancel "B1" false) exDb2 :=
  ⟨by decide, frame_immutable (Op.cancel "B1" false) exDb2 (by decide)⟩

/-- Witness for C6's amended statement: after cancelling `"B1"` in `exDb`,
running a save of another batch and a successful delete of that other
batch — a sequence free of `delete "B1"` — still leaves `"B1"` reported
canceled, and a second `cancel` changes no row's canceled state. -/
theorem cancel_monotonic_witness :
    ((∃ r ∈ exDb.procs, r.batch_id = "B1") ∧
      Op.delete "B1" false ∉ [Op.save exProcB2 false, Op.delete "B2" false]) ∧
    (canceledAt "B1" (cancel "B1" false exDb).2 ∧
      (∀ p, get "B1" (applyOps [Op.save exProcB2 false, Op.delete "B2" false]
          (cancel "B1" false exDb).2) = .ok p → p.canceled = true) ∧
      (cancel "B1" false (cancel "B1" false exDb).2).2.procs.map (·.canceled)
        = (cancel "B1" false exDb).2.procs.map (·.canceled)) :=
  ⟨⟨by decide, by decide⟩,
    cancel_monotonic "B1" exDb [Op.save exProcB2 false, Op.delete "B2" false]
      (by decide) (by decide)⟩

end BatchStorage
